import Mathlib

/-!
Shallow embedding of the offline synchronization subsystem of the
expo-supabase repository (src/lib/localDb/syncManager.ts, baseRepository.ts,
the per-entity repositories, and the SQLite schema in lib/localDb/index.ts).

Local SQLite rows are embedded as Lean structures; timestamps are `Nat`
(the result of `new Date(s).getTime()` on the stored ISO string; the
comparison in the source is on these numbers).  Nullable TEXT columns are
`Option String`, nullable INTEGER columns `Option Nat`.  JavaScript
truthiness of such a column (`!x`) is falsity of `truthyStr` / `truthyNat`
below: `NULL`, `''` and `0` are falsy.  The remote backend (Supabase) is an
external collaborator: each call's outcome is given by a `RemoteEnv`
oracle, and each network call actually issued is recorded as a `RemoteReq`.
-/

/-- The three managed entity types of `fetchRemoteChanges`
(`['levels', 'offices', 'students']`). -/
inductive Entity
  | levels
  | offices
  | students
deriving DecidableEq, Repr

/-- The sync-queue operation kinds; the `sync_queue` schema has
`CHECK (operation IN ('INSERT', 'UPDATE', 'DELETE'))`. -/
inductive Op
  | INSERT
  | UPDATE
  | DELETE
deriving DecidableEq, Repr

/-- Business fields of a locally persisted record.  `levels`/`offices` rows
only use `name`; `students` rows use all of them (see the table schemas in
lib/localDb/index.ts). -/
structure Fields where
  name : String
  birth_date : Option String
  phone : Option String
  address : Option String
  office_id : Option Nat
  level_id : Option Nat
deriving DecidableEq, Repr

/-- One row of a local entity table (columns of the `levels` / `offices` /
`students` tables).  `id` is the AUTOINCREMENT primary key, `is_synced` the
0/1 flag, `operation_type` the pending operation column. -/
structure LocalRow where
  id : Nat
  uuid : String
  fields : Fields
  supabase_id : Option Nat
  is_synced : Bool
  operation_type : Option Op
  created_at : Nat
  updated_at : Nat
  deleted_at : Option String
deriving DecidableEq, Repr

/-- One record as returned by the remote backend for an entity type
(`supabase.from(entity).select('*')`).  `id` is the remote (Supabase)
identifier; `updated_at` may be absent (the source falls back to
`created_at` via `remoteItem.updated_at || remoteItem.created_at`). -/
structure RemoteItem where
  id : Nat
  uuid : String
  fields : Fields
  created_at : Nat
  updated_at : Option Nat
  deleted_at : Option String
deriving DecidableEq, Repr

/-- A local entity table: its rows in storage order plus the next
AUTOINCREMENT id. -/
structure Table where
  rows : List LocalRow
  nextId : Nat
deriving DecidableEq, Repr

/-- The parsed `payload` column of a queue entry
(`JSON.stringify({ ...payload, uuid, updated_at })` in
`BaseRepository.addToSyncQueue`). -/
structure Payload where
  fields : Fields
  uuid : String
  updated_at : Nat
deriving DecidableEq, Repr

/-- One row of the `sync_queue` table. -/
structure QueueEntry where
  id : Nat
  entity : Entity
  entity_local_id : Option Nat
  entity_uuid : Option String
  entity_supabase_id : Option Nat
  operation : Op
  payload : Payload
  timestamp : Nat
  retry_count : Nat
  last_error : Option String
deriving DecidableEq, Repr

/-- JavaScript truthiness of a nullable TEXT value: `null` and `''` are
falsy. -/
def truthyStr : Option String → Bool
  | none => false
  | some s => s != ""

/-- JavaScript truthiness of a nullable INTEGER value: `null` and `0` are
falsy. -/
def truthyNat : Option Nat → Bool
  | none => false
  | some n => n != 0

/-- `maxRetries` of `SyncManager` (the fixed retry policy constant). -/
def maxRetries : Nat := 3

/-- The three local entity tables. -/
structure Tables where
  levels : Table
  offices : Table
  students : Table
deriving DecidableEq, Repr

def getTable : Tables → Entity → Table
  | tb, Entity.levels => tb.levels
  | tb, Entity.offices => tb.offices
  | tb, Entity.students => tb.students

def setTable : Tables → Entity → Table → Tables
  | tb, Entity.levels, T => { tb with levels := T }
  | tb, Entity.offices, T => { tb with offices := T }
  | tb, Entity.students, T => { tb with students := T }

def entityName : Entity → String
  | Entity.levels => "levels"
  | Entity.offices => "offices"
  | Entity.students => "students"

/-- A network call issued against the remote backend. -/
inductive RemoteReq
  | insertReq (ent : Entity) (p : Payload)
  | updateReq (ent : Entity) (remoteId : Nat) (p : Payload)
  | deleteReq (ent : Entity) (remoteId : Nat)
deriving DecidableEq, Repr

/-- Outcomes of the remote backend's calls: an error message or, for
inserts, the remote id returned in `data.id`. -/
structure RemoteEnv where
  insertRes : Entity → Payload → Except String Nat
  updateRes : Entity → Nat → Payload → Except String Unit
  deleteRes : Entity → Nat → Except String Unit

/-- `SyncResult` of syncManager.ts. -/
structure SyncResult where
  success : Bool
  synced : Nat
  failed : Nat
  errors : List String
deriving DecidableEq, Repr

/-- Local effect of a successful `handleInsert`:
`UPDATE ${entity} SET supabase_id = ?, is_synced = 1, operation_type = NULL
WHERE uuid = ?`. -/
def setSupabaseIdByUuid (T : Table) (u : Option String) (sid : Nat) : Table :=
  { T with rows := T.rows.map (fun x =>
      if some x.uuid = u then
        { x with supabase_id := some sid, is_synced := true, operation_type := none }
      else x) }

/-- Local effect of a successful `handleUpdate` / `handleDelete`:
`UPDATE ${entity} SET is_synced = 1, operation_type = NULL WHERE id = ?`. -/
def markSyncedById (T : Table) (lid : Option Nat) : Table :=
  { T with rows := T.rows.map (fun x =>
      if some x.id = lid then
        { x with is_synced := true, operation_type := none }
      else x) }

/-- `handleInsert`: remote create with the payload; on success store the
returned remote id into the local record by uuid. -/
def handleInsert (env : RemoteEnv) (tables : Tables) (e : QueueEntry) :
    Tables × Except String Unit × List RemoteReq :=
  match env.insertRes e.entity e.payload with
  | Except.error m => (tables, Except.error m, [RemoteReq.insertReq e.entity e.payload])
  | Except.ok sid =>
      (setTable tables e.entity (setSupabaseIdByUuid (getTable tables e.entity) e.entity_uuid sid),
       Except.ok (), [RemoteReq.insertReq e.entity e.payload])

/-- `handleUpdate`: `if (!change.entity_supabase_id) throw new Error('Cannot
update: missing Supabase ID')` before any remote call; otherwise remote
update by remote id, then mark the local record synced. -/
def handleUpdate (env : RemoteEnv) (tables : Tables) (e : QueueEntry) :
    Tables × Except String Unit × List RemoteReq :=
  match e.entity_supabase_id with
  | none => (tables, Except.error "Cannot update: missing Supabase ID", [])
  | some sid =>
      if sid = 0 then (tables, Except.error "Cannot update: missing Supabase ID", [])
      else
        match env.updateRes e.entity sid e.payload with
        | Except.error m => (tables, Except.error m, [RemoteReq.updateReq e.entity sid e.payload])
        | Except.ok _ =>
            (setTable tables e.entity (markSyncedById (getTable tables e.entity) e.entity_local_id),
             Except.ok (), [RemoteReq.updateReq e.entity sid e.payload])

/-- `handleDelete`: with no remote id, just mark the local record synced
(no network call); otherwise remote soft-delete, then mark synced. -/
def handleDelete (env : RemoteEnv) (tables : Tables) (e : QueueEntry) :
    Tables × Except String Unit × List RemoteReq :=
  match e.entity_supabase_id with
  | none =>
      (setTable tables e.entity (markSyncedById (getTable tables e.entity) e.entity_local_id),
       Except.ok (), [])
  | some sid =>
      if sid = 0 then
        (setTable tables e.entity (markSyncedById (getTable tables e.entity) e.entity_local_id),
         Except.ok (), [])
      else
        match env.deleteRes e.entity sid with
        | Except.error m => (tables, Except.error m, [RemoteReq.deleteReq e.entity sid])
        | Except.ok _ =>
            (setTable tables e.entity (markSyncedById (getTable tables e.entity) e.entity_local_id),
             Except.ok (), [RemoteReq.deleteReq e.entity sid])

/-- `syncChange`: dispatch on the entry's operation. -/
def syncChange (env : RemoteEnv) (tables : Tables) (e : QueueEntry) :
    Tables × Except String Unit × List RemoteReq :=
  match e.operation with
  | Op.INSERT => handleInsert env tables e
  | Op.UPDATE => handleUpdate env tables e
  | Op.DELETE => handleDelete env tables e

/-- `handleSyncError`: `UPDATE sync_queue SET retry_count = retry_count + 1,
last_error = ? WHERE id = ?`. -/
def bumpRetry (changeId : Nat) (msg : String) (q : QueueEntry) : QueueEntry :=
  if q.id = changeId then
    { q with retry_count := q.retry_count + 1, last_error := some msg }
  else q

/-- `clearSyncChange`: `DELETE FROM sync_queue WHERE id = ?`. -/
def clearSyncChange (queue : List QueueEntry) (changeId : Nat) : List QueueEntry :=
  queue.filter (fun q => decide (q.id ≠ changeId))

/-- State threaded through the push loop of `syncAll`, plus the trace of
remote calls issued. -/
structure PushState where
  tables : Tables
  queue : List QueueEntry
  synced : Nat
  failed : Nat
  errors : List String
  calls : List RemoteReq
deriving Repr

/-- Body of the `for (const change of changes)` loop in `syncAll`:
try `syncChange` then `clearSyncChange` and count a success, or catch,
run `handleSyncError`, count a failure, record the error message, and
continue. -/
def pushStep (env : RemoteEnv) (st : PushState) (e : QueueEntry) : PushState :=
  match syncChange env st.tables e with
  | (t', Except.ok _, cs) =>
      { st with tables := t', queue := clearSyncChange st.queue e.id,
                synced := st.synced + 1, calls := st.calls ++ cs }
  | (t', Except.error m, cs) =>
      { st with tables := t', queue := st.queue.map (bumpRetry e.id m),
                failed := st.failed + 1,
                errors := st.errors ++ [entityName e.entity ++ ": " ++ m],
                calls := st.calls ++ cs }

/-- The push phase of one sync cycle: process the fetched changes
sequentially, in list order. -/
def pushAll (env : RemoteEnv) (changes : List QueueEntry) (st : PushState) : PushState :=
  changes.foldl (pushStep env) st

/-- The queue fetch of `syncAll`:
`SELECT * FROM sync_queue WHERE retry_count < ? ORDER BY timestamp ASC`.
SQLite returns some list that (a) is a permutation of the entries with
`retry_count < maxRetries` and (b) is sorted by `timestamp`; the relative
order of entries with equal timestamps is not specified by the query. -/
def fetchOk (queue out : List QueueEntry) : Prop :=
  List.Perm out (queue.filter (fun e => decide (e.retry_count < maxRetries))) ∧
  out.Pairwise (fun a b => a.timestamp ≤ b.timestamp)

/-- `new Date(remoteItem.updated_at || remoteItem.created_at).getTime()`. -/
def remoteTime (r : RemoteItem) : Nat := r.updated_at.getD r.created_at

/-- `remoteItem.deleted_at` is truthy: the remote record carries a
tombstone. -/
def remoteTombstoned (r : RemoteItem) : Bool := truthyStr r.deleted_at

/-- `deleted_at IS NULL OR deleted_at = ''`, which coincides with JavaScript
`!localItem.deleted_at`. -/
def rowActive (l : LocalRow) : Bool := !truthyStr l.deleted_at

/-- The local snapshot taken by `fetchEntityChanges`:
`SELECT * FROM ${entity} WHERE deleted_at IS NULL OR deleted_at = ''`. -/
def activeRows (T : Table) : List LocalRow := T.rows.filter (fun l => rowActive l)

/-- Tombstone application in `fetchEntityChanges`:
`UPDATE ${entity} SET deleted_at = ?, is_synced = 1, operation_type = NULL
WHERE uuid = ?` with the remote record's `deleted_at`. -/
def applyTombstone (T : Table) (r : RemoteItem) : Table :=
  { T with rows := T.rows.map (fun x =>
      if x.uuid = r.uuid then
        { x with deleted_at := r.deleted_at, is_synced := true, operation_type := none }
      else x) }

/-- The fields written by `updateLocalFromRemote`: all business fields for
`students`, only `name` for the other entities. -/
def mergeFields : Entity → Fields → Fields → Fields
  | Entity.students, _, newF => newF
  | _, oldF, newF => { oldF with name := newF.name }

/-- `updateLocalFromRemote`: overwrite the business fields, set
`updated_at` to the remote time and `is_synced = 1`, keyed by uuid.  (No
other column appears in either UPDATE statement.) -/
def updateLocalFromRemote (ent : Entity) (T : Table) (r : RemoteItem) : Table :=
  { T with rows := T.rows.map (fun x =>
      if x.uuid = r.uuid then
        { x with fields := mergeFields ent x.fields r.fields,
                 updated_at := remoteTime r, is_synced := true }
      else x) }

/-- The columns inserted by `insertRemoteItem`: all business fields for
`students`; only `name` for the other entities (their remaining business
columns default to NULL). -/
def insertFields : Entity → Fields → Fields
  | Entity.students, f => f
  | _, f => { name := f.name, birth_date := none, phone := none,
              address := none, office_id := none, level_id := none }

/-- `INSERT OR IGNORE` conflict test: the schema has UNIQUE columns `uuid`
and `supabase_id`, so the insert is ignored when either collides. -/
def insertConflict (T : Table) (r : RemoteItem) : Bool :=
  T.rows.any (fun x => decide (x.uuid = r.uuid) || decide (x.supabase_id = some r.id))

/-- `insertRemoteItem`: `INSERT OR IGNORE INTO ${entity} (...) VALUES (...)`
with `is_synced = 1`, `supabase_id` from the remote id, `updated_at`
falling back to `created_at`; `operation_type` and `deleted_at` are not in
the column list and default to NULL. -/
def insertRemoteItem (ent : Entity) (T : Table) (r : RemoteItem) : Table :=
  if insertConflict T r then T
  else
    { rows := T.rows ++
        [{ id := T.nextId, uuid := r.uuid, fields := insertFields ent r.fields,
           supabase_id := some r.id, is_synced := true, operation_type := none,
           created_at := r.created_at, updated_at := remoteTime r, deleted_at := none }],
      nextId := T.nextId + 1 }

/-- Body of the `for (const remoteItem of remoteItems)` loop of
`fetchEntityChanges`.  `snapshot` is the local read taken before the loop;
`localItems.find(l => l.uuid === remoteItem.uuid)` searches it, not the
evolving table. -/
def applyRemoteItem (ent : Entity) (snapshot : List LocalRow) (T : Table)
    (r : RemoteItem) : Table :=
  if remoteTombstoned r then
    match snapshot.find? (fun l => l.uuid == r.uuid) with
    | some l => if rowActive l then applyTombstone T r else T
    | none => T
  else
    match snapshot.find? (fun l => l.uuid == r.uuid) with
    | none => insertRemoteItem ent T r
    | some l =>
        if l.updated_at < remoteTime r ∧ l.is_synced = true then
          updateLocalFromRemote ent T r
        else T

/-- `fetchEntityChanges` for one entity type: snapshot the active local
rows, then fold the remote records over the table. -/
def fetchEntityChanges (ent : Entity) (T : Table) (remoteItems : List RemoteItem) : Table :=
  remoteItems.foldl (applyRemoteItem ent (activeRows T)) T

/-- `fetchRemoteChanges`: pull each entity type in the fixed order; a fetch
failure for one entity type is caught and that type skipped. -/
def fetchRemoteChangesAll (pullData : Entity → Except String (List RemoteItem))
    (tb : Tables) : Tables :=
  [Entity.levels, Entity.offices, Entity.students].foldl (fun acc ent =>
    match pullData ent with
    | Except.ok remoteItems =>
        setTable acc ent (fetchEntityChanges ent (getTable acc ent) remoteItems)
    | Except.error _ => acc) tb

/-- The `SyncManager` state visible to `syncAll`: the two flags, the local
entity tables and the sync queue. -/
structure SyncState where
  syncInProgress : Bool
  isOnline : Bool
  tables : Tables
  queue : List QueueEntry
deriving Repr

/-- `syncAll`.  `changes` is the list returned by the queue fetch (related
to `st.queue` by `fetchOk` in the theorems).  The guards reject the call
with a no-op failure result; otherwise push runs, then pull, then the
aggregate result with `success = (failed === 0)` is built and the
`finally` clause clears `syncInProgress`. -/
def syncAll (env : RemoteEnv) (pullData : Entity → Except String (List RemoteItem))
    (changes : List QueueEntry) (st : SyncState) : SyncState × SyncResult :=
  if st.syncInProgress then
    (st, { success := false, synced := 0, failed := 0, errors := ["Sync already in progress"] })
  else if st.isOnline = false then
    (st, { success := false, synced := 0, failed := 0, errors := ["Device is offline"] })
  else
    let p := pushAll env changes
      { tables := st.tables, queue := st.queue, synced := 0, failed := 0,
        errors := [], calls := [] }
    let tb := fetchRemoteChangesAll pullData p.tables
    ({ st with tables := tb, queue := p.queue, syncInProgress := false },
     { success := p.failed == 0, synced := p.synced, failed := p.failed, errors := p.errors })

/-- `getPendingSyncCount`:
`SELECT COUNT(*) FROM sync_queue WHERE retry_count < ?`. -/
def getPendingSyncCount (queue : List QueueEntry) : Nat :=
  (queue.filter (fun e => decide (e.retry_count < maxRetries))).length

/-- `clearFailedSyncs`: `DELETE FROM sync_queue WHERE retry_count >= ?`. -/
def clearFailedSyncs (queue : List QueueEntry) : List QueueEntry :=
  queue.filter (fun e => !decide (maxRetries ≤ e.retry_count))

/-- One run of `fetchEntityChanges` as a state transformer on the
`SyncManager` state: only the entity's table is written; the pull phase
contains no statement touching `sync_queue`. -/
def pullEntityState (ent : Entity) (remoteItems : List RemoteItem) (st : SyncState) : SyncState :=
  { st with tables :=
      setTable st.tables ent (fetchEntityChanges ent (getTable st.tables ent) remoteItems) }

/-- The first row of a table carrying a given uuid (the schema makes `uuid`
UNIQUE, so with distinct uuids this is the row). -/
def rowByUuid (T : Table) (u : String) : Option LocalRow :=
  T.rows.find? (fun l => l.uuid == u)

/-- The snapshot lookup of `fetchEntityChanges` for a given uuid. -/
def findActive (T : Table) (u : String) : Option LocalRow :=
  (activeRows T).find? (fun l => l.uuid == u)

/-- A table is stable for a remote record when replaying that record's loop
body against the table's own active snapshot changes nothing: a tombstoned
remote finds no active row; with no active row the re-insert hits the
`INSERT OR IGNORE` conflict; with an active row the
`remoteTime > localTime && is_synced` guard fails. -/
def stableFor (T : Table) (r : RemoteItem) : Prop :=
  if remoteTombstoned r then findActive T r.uuid = none
  else
    (findActive T r.uuid = none → insertConflict T r = true) ∧
    (∀ l, findActive T r.uuid = some l →
      ¬(l.updated_at < remoteTime r ∧ l.is_synced = true))

/-! Concrete data used by the witnesses and counterexamples below. -/

def fieldsA : Fields :=
  { name := "A", birth_date := none, phone := none, address := none,
    office_id := none, level_id := none }

def fieldsB : Fields :=
  { name := "B", birth_date := none, phone := none, address := none,
    office_id := none, level_id := none }

def payloadA : Payload := { fields := fieldsA, uuid := "u1", updated_at := 10 }

def emptyTable : Table := { rows := [], nextId := 1 }

def emptyTables : Tables :=
  { levels := emptyTable, offices := emptyTable, students := emptyTable }

/-- A remote environment in which every call fails. -/
def envFail : RemoteEnv :=
  { insertRes := fun _ _ => Except.error "network request failed",
    updateRes := fun _ _ _ => Except.error "network request failed",
    deleteRes := fun _ _ => Except.error "network request failed" }

def pullEmpty : Entity → Except String (List RemoteItem) := fun _ => Except.ok []

def qeIns : QueueEntry :=
  { id := 1, entity := Entity.levels, entity_local_id := some 1, entity_uuid := some "u1",
    entity_supabase_id := none, operation := Op.INSERT, payload := payloadA,
    timestamp := 100, retry_count := 0, last_error := none }

def qeUpdNoId : QueueEntry := { qeIns with id := 2, operation := Op.UPDATE }

def qeTieA : QueueEntry := { qeIns with id := 1, timestamp := 100 }

def qeTieB : QueueEntry := { qeIns with id := 2, timestamp := 100 }

def qeEarly : QueueEntry := { qeIns with id := 3, timestamp := 50 }

def qeLate : QueueEntry := { qeIns with id := 4, timestamp := 100 }

def deadE : QueueEntry := { qeIns with id := 5, retry_count := 3 }

def liveE : QueueEntry := { qeIns with id := 6, retry_count := 0 }

def stBusy : SyncState :=
  { syncInProgress := true, isOnline := true, tables := emptyTables, queue := [] }

def stIdle : SyncState :=
  { syncInProgress := false, isOnline := true, tables := emptyTables, queue := [] }

def pushSt1 : PushState :=
  { tables := emptyTables, queue := [qeIns], synced := 0, failed := 0, errors := [], calls := [] }

def pushStUpd : PushState :=
  { tables := emptyTables, queue := [qeUpdNoId], synced := 0, failed := 0, errors := [],
    calls := [] }

def pushQSt : PushState :=
  { tables := emptyTables, queue := [deadE, liveE], synced := 0, failed := 0, errors := [],
    calls := [] }

def cgRow : LocalRow :=
  { id := 1, uuid := "u1", fields := fieldsA, supabase_id := some 7, is_synced := false,
    operation_type := some Op.UPDATE, created_at := 0, updated_at := 5, deleted_at := none }

def cgRow2 : LocalRow := { cgRow with is_synced := true }

def cgTable2 : Table := { rows := [cgRow2], nextId := 2 }

def cgRow2Out : LocalRow :=
  { cgRow2 with fields := fieldsB, updated_at := 10, is_synced := true }

def remNew : RemoteItem :=
  { id := 7, uuid := "u1", fields := fieldsB, created_at := 0, updated_at := some 10,
    deleted_at := none }

def pendRow : LocalRow :=
  { id := 1, uuid := "u2", fields := fieldsA, supabase_id := none, is_synced := false,
    operation_type := some Op.INSERT, created_at := 0, updated_at := 5, deleted_at := none }

def pendTable : Table := { rows := [pendRow], nextId := 2 }

def tombRem : RemoteItem :=
  { id := 9, uuid := "u2", fields := fieldsA, created_at := 0, updated_at := some 1,
    deleted_at := some "2024-01-01T00:00:00Z" }

def remSameU2 : RemoteItem :=
  { id := 13, uuid := "u2", fields := fieldsB, created_at := 0, updated_at := some 50,
    deleted_at := none }

def remA : RemoteItem :=
  { id := 11, uuid := "ua", fields := fieldsA, created_at := 1, updated_at := some 3,
    deleted_at := none }

def remB : RemoteItem :=
  { id := 12, uuid := "ub", fields := fieldsB, created_at := 2, updated_at := none,
    deleted_at := some "2024-02-02T00:00:00Z" }

def stPend : SyncState :=
  { syncInProgress := false, isOnline := true,
    tables := { levels := pendTable, offices := emptyTable, students := emptyTable },
    queue := [] }

/-! ### List-level helper lemmas -/

theorem find_cons_pos {α : Type} {p : α → Bool} {a : α} (l : List α) (h : p a = true) :
    (a :: l).find? p = some a := List.find?_cons_of_pos _ h

theorem find_cons_neg {α : Type} {p : α → Bool} {a : α} (l : List α) (h : p a = false) :
    (a :: l).find? p = l.find? p := by
  simp [h]

theorem find_filter {α : Type} (p q : α → Bool) (l : List α) :
    (l.filter q).find? p = l.find? (fun x => q x && p x) := by
  induction l with
  | nil => rfl
  | cons a t ih =>
      cases hq : q a
      · rw [List.filter_cons_of_neg (by simp [hq]), find_cons_neg t (by simp [hq]), ih]
      · cases hp : p a
        · rw [List.filter_cons_of_pos (by simp [hq]), find_cons_neg _ hp,
            find_cons_neg t (by simp [hq, hp]), ih]
        · rw [List.filter_cons_of_pos (by simp [hq]), find_cons_pos _ hp,
            find_cons_pos t (by simp [hq, hp])]

theorem find_map_congr {α : Type} (g : α → α) (p : α → Bool) (l : List α)
    (h1 : ∀ x, p (g x) = p x) (h2 : ∀ x, p x = true → g x = x) :
    (l.map g).find? p = l.find? p := by
  induction l with
  | nil => rfl
  | cons a t ih =>
      cases hp : p a
      · rw [List.map_cons, find_cons_neg _ (by rw [h1 a, hp]), find_cons_neg _ hp, ih]
      · rw [List.map_cons, find_cons_pos _ (by rw [h1 a, hp]), find_cons_pos _ hp, h2 a hp]

theorem find_map_pres {α : Type} (g : α → α) (p : α → Bool) (l : List α)
    (h1 : ∀ x, p (g x) = p x) : (l.map g).find? p = (l.find? p).map g := by
  induction l with
  | nil => rfl
  | cons a t ih =>
      cases hp : p a
      · rw [List.map_cons, find_cons_neg _ (by rw [h1 a, hp]), find_cons_neg _ hp, ih]
      · rw [List.map_cons, find_cons_pos _ (by rw [h1 a, hp]), find_cons_pos _ hp]
        rfl

theorem find_map_none {α : Type} (g : α → α) (p : α → Bool) (l : List α)
    (h : ∀ x, p (g x) = false) : (l.map g).find? p = none := by
  rw [List.find?_eq_none]
  intro a ha
  rcases List.mem_map.mp ha with ⟨x, _, rfl⟩
  simp [h x]

theorem find_append_none {α : Type} (p : α → Bool) (l app : List α)
    (h : ∀ x ∈ app, p x = false) : (l ++ app).find? p = l.find? p := by
  induction l with
  | nil =>
      rw [List.nil_append, List.find?_nil, List.find?_eq_none]
      intro a ha
      simp [h a ha]
  | cons a t ih =>
      cases hp : p a
      · rw [List.cons_append, find_cons_neg _ hp, find_cons_neg _ hp, ih]
      · rw [List.cons_append, find_cons_pos _ hp, find_cons_pos _ hp]

theorem find_append_left_none {α : Type} (p : α → Bool) (l1 l2 : List α)
    (h : l1.find? p = none) : (l1 ++ l2).find? p = l2.find? p := by
  induction l1 with
  | nil => rfl
  | cons a t ih =>
      cases hp : p a
      · rw [find_cons_neg _ hp] at h
        rw [List.cons_append, find_cons_neg _ hp, ih h]
      · rw [find_cons_pos _ hp] at h
        cases h

theorem any_map_congr {α : Type} (g : α → α) (p : α → Bool) (l : List α)
    (h : ∀ x, p (g x) = p x) : (l.map g).any p = l.any p := by
  induction l with
  | nil => rfl
  | cons a t ih => rw [List.map_cons, List.any_cons, List.any_cons, h a, ih]

theorem foldl_fixed {α β : Type} (f : α → β → α) (a : α) (l : List β)
    (h : ∀ b ∈ l, f a b = a) : l.foldl f a = a := by
  induction l with
  | nil => rfl
  | cons b t ih =>
      rw [List.foldl_cons, h b (by simp)]
      exact ih (fun c hc => h c (by simp [hc]))

theorem forall2_map_self {α : Type} (R : α → α → Prop) (f : α → α) (l : List α)
    (h : ∀ x, R x (f x)) : List.Forall₂ R l (l.map f) := by
  induction l with
  | nil => exact List.Forall₂.nil
  | cons a t ih => exact List.Forall₂.cons (h a) ih

/-! ### Push-side lemmas -/

theorem syncChange_error_tables (env : RemoteEnv) (tables : Tables) (e : QueueEntry)
    (t' : Tables) (m : String) (cs : List RemoteReq)
    (h : syncChange env tables e = (t', Except.error m, cs)) : t' = tables := by
  obtain ⟨eid, ent, lid, uu, sid, op, pl, ts, rc, le⟩ := e
  cases op
  · simp only [syncChange, handleInsert] at h
    cases hres : env.insertRes ent pl <;> rw [hres] at h <;> simp_all
  · cases sid with
    | none => simp only [syncChange, handleUpdate] at h; simp_all
    | some n =>
        simp only [syncChange, handleUpdate] at h
        by_cases h0 : n = 0
        · subst h0
          rw [if_pos rfl] at h
          simp_all
        · rw [if_neg h0] at h
          cases hres : env.updateRes ent n pl <;> rw [hres] at h <;> simp_all
  · cases sid with
    | none => simp only [syncChange, handleDelete] at h; simp_all
    | some n =>
        simp only [syncChange, handleDelete] at h
        by_cases h0 : n = 0
        · subst h0
          rw [if_pos rfl] at h
          simp_all
        · rw [if_neg h0] at h
          cases hres : env.deleteRes ent n <;> rw [hres] at h <;> simp_all

theorem pushStep_counts (env : RemoteEnv) (st : PushState) (e : QueueEntry) :
    (pushStep env st e).synced + (pushStep env st e).failed = st.synced + st.failed + 1 := by
  rcases hsc : syncChange env st.tables e with ⟨t', exc, cs⟩
  cases exc <;> simp [pushStep, hsc] <;> omega

theorem pushAll_counts (env : RemoteEnv) (changes : List QueueEntry) (st : PushState) :
    (pushAll env changes st).synced + (pushAll env changes st).failed =
      st.synced + st.failed + changes.length := by
  induction changes generalizing st with
  | nil => simp [pushAll]
  | cons e t ih =>
      have h1 := pushStep_counts env st e
      have h2 := ih (pushStep env st e)
      simp only [pushAll, List.foldl_cons] at h2 ⊢
      rw [h2, List.length_cons]
      omega

/-! ### Claim theorems: coordinator and push -/

/-- C2: a call to `syncAll` entered while `syncInProgress` is set is rejected
immediately: the state (queue, entity tables, every retry counter) is
returned unchanged and the result is the no-op failure
`{ success: false, synced: 0, failed: 0 }`. -/
theorem syncAll_single_flight (env : RemoteEnv)
    (pullData : Entity → Except String (List RemoteItem))
    (changes : List QueueEntry) (st : SyncState) (h : st.syncInProgress = true) :
    syncAll env pullData changes st =
      (st, { success := false, synced := 0, failed := 0,
             errors := ["Sync already in progress"] }) := by
  unfold syncAll
  rw [if_pos h]

theorem syncAll_single_flight_witness :
    stBusy.syncInProgress = true ∧
    syncAll envFail pullEmpty [] stBusy =
      (stBusy, { success := false, synced := 0, failed := 0,
                 errors := ["Sync already in progress"] }) :=
  ⟨rfl, syncAll_single_flight envFail pullEmpty [] stBusy rfl⟩

/-- C10: `updateLocalFromRemote` only writes the business fields,
`updated_at` and `is_synced`; every row keeps its `id` (local_id), `uuid`,
`supabase_id` (remote_id), `created_at`, `deleted_at` and `operation_type`. -/
theorem updateLocalFromRemote_frame (ent : Entity) (T : Table) (r : RemoteItem) :
    List.Forall₂ (fun x x' => x'.id = x.id ∧ x'.uuid = x.uuid ∧
        x'.supabase_id = x.supabase_id ∧ x'.created_at = x.created_at ∧
        x'.deleted_at = x.deleted_at ∧ x'.operation_type = x.operation_type)
      T.rows (updateLocalFromRemote ent T r).rows := by
  apply forall2_map_self
  intro x
  by_cases h : x.uuid = r.uuid <;> simp [h]

/-- C7: an `UPDATE` queue entry whose `entity_supabase_id` is absent (falsy)
fails inside `handleUpdate` before any network call: `syncChange` returns
the error with an empty call trace, and the surrounding loop body counts a
failure, bumps only this entry's `retry_count`/`last_error`, removes
nothing, and leaves the entity tables untouched. -/
theorem update_missing_remote_id (env : RemoteEnv) (st : PushState) (e : QueueEntry)
    (hop : e.operation = Op.UPDATE) (hid : truthyNat e.entity_supabase_id = false) :
    syncChange env st.tables e =
      (st.tables, Except.error "Cannot update: missing Supabase ID", []) ∧
    (pushStep env st e).tables = st.tables ∧
    (pushStep env st e).queue =
      st.queue.map (bumpRetry e.id "Cannot update: missing Supabase ID") ∧
    (pushStep env st e).failed = st.failed + 1 ∧
    (pushStep env st e).synced = st.synced ∧
    (pushStep env st e).calls = st.calls := by
  have hsc : syncChange env st.tables e =
      (st.tables, Except.error "Cannot update: missing Supabase ID", []) := by
    unfold syncChange
    rw [hop]
    unfold handleUpdate
    cases hcase : e.entity_supabase_id with
    | none => rfl
    | some sid =>
        rw [hcase] at hid
        unfold truthyNat at hid
        simp at hid
        simp [hid]
  refine ⟨hsc, ?_, ?_, ?_, ?_, ?_⟩ <;> simp [pushStep, hsc]

theorem update_missing_remote_id_witness :
    qeUpdNoId.operation = Op.UPDATE ∧
    truthyNat qeUpdNoId.entity_supabase_id = false ∧
    (pushStep envFail pushStUpd qeUpdNoId).failed = pushStUpd.failed + 1 ∧
    (pushStep envFail pushStUpd qeUpdNoId).calls = pushStUpd.calls :=
  ⟨rfl, rfl,
   (update_missing_remote_id envFail pushStUpd qeUpdNoId rfl rfl).2.2.2.1,
   (update_missing_remote_id envFail pushStUpd qeUpdNoId rfl rfl).2.2.2.2.2⟩

/-- C4: when the remote operation for a queue entry fails, the loop body of
`syncAll` leaves the entity tables (hence the record's `is_synced` and
`operation_type`) unchanged, bumps exactly that entry's `retry_count` and
sets its `last_error`, removes nothing from the queue, counts one failure,
and the batch goes on: the fold continues with the remaining entries and
every entry of the batch is accounted as synced or failed. -/
theorem push_failure_isolation (env : RemoteEnv) (st : PushState) (e : QueueEntry)
    (t' : Tables) (m : String) (cs : List RemoteReq) (changes : List QueueEntry)
    (h : syncChange env st.tables e = (t', Except.error m, cs)) :
    (pushStep env st e).tables = st.tables ∧
    (pushStep env st e).queue = st.queue.map (bumpRetry e.id m) ∧
    (pushStep env st e).failed = st.failed + 1 ∧
    (pushStep env st e).synced = st.synced ∧
    (pushStep env st e).errors = st.errors ++ [entityName e.entity ++ ": " ++ m] ∧
    pushAll env (e :: changes) st = pushAll env changes (pushStep env st e) ∧
    (pushAll env changes st).synced + (pushAll env changes st).failed =
      st.synced + st.failed + changes.length := by
  have ht : t' = st.tables := syncChange_error_tables env st.tables e t' m cs h
  subst ht
  refine ⟨?_, ?_, ?_, ?_, ?_, rfl, pushAll_counts env changes st⟩ <;> simp [pushStep, h]

theorem push_failure_isolation_witness :
    syncChange envFail pushSt1.tables qeIns =
      (pushSt1.tables, Except.error "network request failed",
       [RemoteReq.insertReq Entity.levels payloadA]) ∧
    (pushStep envFail pushSt1 qeIns).tables = pushSt1.tables ∧
    (pushStep envFail pushSt1 qeIns).failed = pushSt1.failed + 1 :=
  ⟨rfl,
   (push_failure_isolation envFail pushSt1 qeIns pushSt1.tables "network request failed"
      [RemoteReq.insertReq Entity.levels payloadA] [] rfl).1,
   (push_failure_isolation envFail pushSt1 qeIns pushSt1.tables "network request failed"
      [RemoteReq.insertReq Entity.levels payloadA] [] rfl).2.2.1⟩

theorem pushAll_keeps_entry (env : RemoteEnv) (e : QueueEntry) :
    ∀ (out : List QueueEntry) (st : PushState), e ∈ st.queue → (∀ c ∈ out, c.id ≠ e.id) →
    e ∈ (pushAll env out st).queue := by
  intro out
  induction out with
  | nil => intro st hmem _; exact hmem
  | cons c t ih =>
      intro st hmem hne
      have hcne : c.id ≠ e.id := hne c (by simp)
      have hstep : e ∈ (pushStep env st c).queue := by
        rcases hsc : syncChange env st.tables c with ⟨t', exc, cs⟩
        cases exc with
        | ok u =>
            simp [pushStep, hsc, clearSyncChange]
            exact ⟨hmem, fun hEq => hcne hEq.symm⟩
        | error msg =>
            simp only [pushStep, hsc]
            have hb : bumpRetry c.id msg e = e := by
              unfold bumpRetry
              rw [if_neg (fun hEq => hcne hEq.symm)]
            exact hb ▸ List.mem_map_of_mem _ hmem
      simp only [pushAll, List.foldl_cons]
      exact ih (pushStep env st c) hstep (fun c' h' => hne c' (List.mem_cons_of_mem _ h'))

/-- C6 counterexample: a call rejected by the single-flight guard completes
and returns `{ success: false, synced: 0, failed: 0 }`, so for that
completed call `success` differs from `failed == 0`. -/
theorem sync_result_success_counterexample :
    (syncAll envFail pullEmpty [] stBusy).2.success = false ∧
    (syncAll envFail pullEmpty [] stBusy).2.failed = 0 ∧
    ¬((syncAll envFail pullEmpty [] stBusy).2.success =
        ((syncAll envFail pullEmpty [] stBusy).2.failed == 0)) := by
  refine ⟨rfl, rfl, by decide⟩

/-- C6 amended: for every call that passes the in-progress and offline
guards and actually runs a cycle, the returned result satisfies
`success = (failed == 0)`, and `synced`/`failed` together account for
exactly the fetched queue entries; `syncAll` is a total function, so no
failure escapes the returned result.  (Guard-rejected calls instead return
the fixed no-op failure with `success = false`, `synced = failed = 0`.) -/
theorem sync_result_success_amended (env : RemoteEnv)
    (pullData : Entity → Except String (List RemoteItem))
    (changes : List QueueEntry) (st : SyncState)
    (h1 : st.syncInProgress = false) (h2 : st.isOnline = true) :
    (syncAll env pullData changes st).2.success =
      ((syncAll env pullData changes st).2.failed == 0) ∧
    (syncAll env pullData changes st).2.synced +
      (syncAll env pullData changes st).2.failed = changes.length := by
  have hc := pushAll_counts env changes
    { tables := st.tables, queue := st.queue, synced := 0, failed := 0, errors := [], calls := [] }
  unfold syncAll
  rw [if_neg (by simp [h1]), if_neg (by simp [h2])]
  exact ⟨rfl, by simpa using hc⟩

theorem sync_result_success_amended_witness :
    stIdle.syncInProgress = false ∧ stIdle.isOnline = true ∧
    (syncAll envFail pullEmpty [qeIns] stIdle).2.success =
      ((syncAll envFail pullEmpty [qeIns] stIdle).2.failed == 0) ∧
    (syncAll envFail pullEmpty [qeIns] stIdle).2.synced +
      (syncAll envFail pullEmpty [qeIns] stIdle).2.failed = [qeIns].length :=
  ⟨rfl, rfl,
   (sync_result_success_amended envFail pullEmpty [qeIns] stIdle rfl rfl).1,
   (sync_result_success_amended envFail pullEmpty [qeIns] stIdle rfl rfl).2⟩

/-- C5: a queue entry with `retry_count >= maxRetries` is excluded from the
fetched batch and from `getPendingSyncCount`, survives `pushAll` untouched
(push deletes only processed entries, whose ids differ), and
`clearFailedSyncs` removes exactly the entries with
`retry_count >= maxRetries`. -/
theorem dead_letter_semantics (env : RemoteEnv) (queue out : List QueueEntry)
    (e : QueueEntry) (tb : Tables)
    (hfetch : fetchOk queue out)
    (hids : queue.Pairwise (fun a b => a.id ≠ b.id))
    (hmem : e ∈ queue) (hdead : maxRetries ≤ e.retry_count) :
    e ∉ out ∧
    (∀ q', getPendingSyncCount (e :: q') = getPendingSyncCount q') ∧
    e ∈ (pushAll env out
        { tables := tb, queue := queue, synced := 0, failed := 0,
          errors := [], calls := [] }).queue ∧
    (∀ x, x ∈ clearFailedSyncs queue ↔ (x ∈ queue ∧ x.retry_count < maxRetries)) := by
  obtain ⟨hperm, hsort⟩ := hfetch
  have hnotin : e ∉ out := by
    intro hin
    have hf := hperm.mem_iff.mp hin
    have := (List.mem_filter.mp hf).2
    simp at this
    omega
  refine ⟨hnotin, ?_, ?_, ?_⟩
  · intro q'
    unfold getPendingSyncCount
    rw [List.filter_cons_of_neg (by simp; omega)]
  · have hneid : ∀ c ∈ out, c.id ≠ e.id := by
      intro c hc
      have hcf := hperm.mem_iff.mp hc
      have hcq := (List.mem_filter.mp hcf).1
      have hcr : c.retry_count < maxRetries := by
        have := (List.mem_filter.mp hcf).2
        simpa using this
      have hcne : c ≠ e := by
        intro hEq
        rw [hEq] at hcr
        omega
      exact List.Pairwise.forall (fun _ _ hab => Ne.symm hab) hids hcq hmem hcne
    exact pushAll_keeps_entry env e out _ hmem hneid
  · intro x
    unfold clearFailedSyncs
    rw [List.mem_filter]
    constructor
    · rintro ⟨hx, hb⟩
      refine ⟨hx, ?_⟩
      simp at hb
      omega
    · rintro ⟨hx, hlt⟩
      refine ⟨hx, ?_⟩
      simp
      omega

theorem dead_letter_semantics_witness :
    maxRetries ≤ deadE.retry_count ∧
    deadE ∉ [liveE] ∧
    deadE ∈ (pushAll envFail [liveE]
      { tables := emptyTables, queue := [deadE, liveE], synced := 0, failed := 0,
        errors := [], calls := [] }).queue :=
  ⟨by decide,
   (dead_letter_semantics envFail [deadE, liveE] [liveE] deadE emptyTables
      (by unfold fetchOk; exact ⟨by decide, by decide⟩)
      (by decide) (by decide) (by decide)).1,
   (dead_letter_semantics envFail [deadE, liveE] [liveE] deadE emptyTables
      (by unfold fetchOk; exact ⟨by decide, by decide⟩)
      (by decide) (by decide) (by decide)).2.2.1⟩

/-- C3 counterexample: two entries of the same entity type enqueued in the
same second (equal `timestamp`, `strftime('%s','now')` has one-second
resolution) may legally be returned by
`ORDER BY timestamp ASC` with the later-created entry (larger id) first:
the output `[qeTieB, qeTieA]` satisfies `fetchOk` yet violates
creation-order processing for ties. -/
theorem queue_order_ties_counterexample :
    fetchOk [qeTieA, qeTieB] [qeTieB, qeTieA] ∧
    ¬ List.Pairwise (fun a b => a.entity = b.entity →
        a.timestamp < b.timestamp ∨ (a.timestamp = b.timestamp ∧ a.id ≤ b.id))
      [qeTieB, qeTieA] := by
  refine ⟨?_, ?_⟩
  · unfold fetchOk
    exact ⟨by decide, by decide⟩
  · decide

/-- C3 amended: within one sync cycle, entries of the queue with
`retry_count < maxRetries` are all fetched, and any entry with a strictly
earlier `timestamp` appears before (hence is processed before) any entry
with a strictly later one, across and within entity types; the relative
order of entries with equal timestamps is not guaranteed. -/
theorem queue_order_strict_timestamps (queue out : List QueueEntry) (a b : QueueEntry)
    (hfetch : fetchOk queue out)
    (ha : a ∈ queue) (hra : a.retry_count < maxRetries)
    (hb : b ∈ queue) (hrb : b.retry_count < maxRetries)
    (hab : a.timestamp < b.timestamp) :
    a ∈ out ∧ b ∈ out ∧
    ∀ i j : Fin out.length, out.get i = a → out.get j = b → i < j := by
  obtain ⟨hperm, hsort⟩ := hfetch
  have hamem : a ∈ out := hperm.mem_iff.mpr (List.mem_filter.mpr ⟨ha, by simpa using hra⟩)
  have hbmem : b ∈ out := hperm.mem_iff.mpr (List.mem_filter.mpr ⟨hb, by simpa using hrb⟩)
  refine ⟨hamem, hbmem, ?_⟩
  intro i j hia hjb
  rcases lt_trichotomy i j with h | h | h
  · exact h
  · exfalso
    rw [h] at hia
    have hEq : a = b := hia.symm.trans hjb
    rw [hEq] at hab
    omega
  · exfalso
    have hle := (List.pairwise_iff_get.mp hsort) j i h
    rw [hia, hjb] at hle
    omega

theorem queue_order_strict_timestamps_witness :
    qeEarly.timestamp < qeLate.timestamp ∧
    qeEarly ∈ [qeEarly, qeLate] ∧ qeLate ∈ [qeEarly, qeLate] :=
  ⟨by decide,
   (queue_order_strict_timestamps [qeLate, qeEarly] [qeEarly, qeLate] qeEarly qeLate
      (by unfold fetchOk; exact ⟨by decide, by decide⟩)
      (by decide) (by decide) (by decide) (by decide) (by decide)).1,
   (queue_order_strict_timestamps [qeLate, qeEarly] [qeEarly, qeLate] qeEarly qeLate
      (by unfold fetchOk; exact ⟨by decide, by decide⟩)
      (by decide) (by decide) (by decide) (by decide) (by decide)).2.1⟩

/-! ### Pull-side invariance lemmas -/

theorem findActive_eq (T : Table) (u : String) :
    findActive T u = T.rows.find? (fun l => rowActive l && (l.uuid == u)) := by
  unfold findActive activeRows
  exact find_filter _ _ _

theorem find_uuid_map_step (f : LocalRow → LocalRow) (v : String)
    (hf : ∀ x, (f x).uuid = x.uuid) (u : String) (hu : u ≠ v) (rows : List LocalRow) :
    (rows.map (fun x => if x.uuid = v then f x else x)).find? (fun l => l.uuid == u) =
      rows.find? (fun l => l.uuid == u) := by
  apply find_map_congr
  · intro x
    by_cases hx : x.uuid = v
    · rw [if_pos hx, hf x]
    · rw [if_neg hx]
  · intro x hx
    have hxu : x.uuid = u := by simpa using hx
    rw [if_neg (by rw [hxu]; exact hu)]

theorem findActive_uuid_map_step (f : LocalRow → LocalRow) (v : String)
    (hf : ∀ x, (f x).uuid = x.uuid) (u : String) (hu : u ≠ v) (rows : List LocalRow) :
    (rows.map (fun x => if x.uuid = v then f x else x)).find?
        (fun l => rowActive l && (l.uuid == u)) =
      rows.find? (fun l => rowActive l && (l.uuid == u)) := by
  apply find_map_congr
  · intro x
    by_cases hx : x.uuid = v
    · rw [if_pos hx]
      have h1 : ((f x).uuid == u) = false := by
        rw [hf x, hx]
        exact beq_eq_false_iff_ne.mpr (fun h => hu h.symm)
      have h2 : (x.uuid == u) = false := by
        rw [hx]
        exact beq_eq_false_iff_ne.mpr (fun h => hu h.symm)
      rw [h1, h2, Bool.and_false, Bool.and_false]
    · rw [if_neg hx]
  · intro x hx
    have hxu : x.uuid = u := by
      have h2 := (Bool.and_eq_true _ _).mp hx
      simpa using h2.2
    rw [if_neg (by rw [hxu]; exact hu)]

theorem rowByUuid_applyTombstone (T : Table) (r : RemoteItem) (u : String)
    (hu : u ≠ r.uuid) : rowByUuid (applyTombstone T r) u = rowByUuid T u := by
  unfold rowByUuid applyTombstone
  exact find_uuid_map_step
    (fun x => { x with deleted_at := r.deleted_at, is_synced := true, operation_type := none })
    r.uuid (fun x => rfl) u hu T.rows

theorem rowByUuid_update_other (ent : Entity) (T : Table) (r : RemoteItem) (u : String)
    (hu : u ≠ r.uuid) : rowByUuid (updateLocalFromRemote ent T r) u = rowByUuid T u := by
  unfold rowByUuid updateLocalFromRemote
  exact find_uuid_map_step
    (fun x => { x with fields := mergeFields ent x.fields r.fields,
                       updated_at := remoteTime r, is_synced := true })
    r.uuid (fun x => rfl) u hu T.rows

theorem rowByUuid_insert_other (ent : Entity) (T : Table) (r : RemoteItem) (u : String)
    (hu : u ≠ r.uuid) : rowByUuid (insertRemoteItem ent T r) u = rowByUuid T u := by
  unfold insertRemoteItem
  by_cases hc : insertConflict T r
  · rw [if_pos hc]
  · rw [if_neg hc]
    unfold rowByUuid
    apply find_append_none
    intro x hx
    rw [List.mem_singleton] at hx
    subst hx
    exact beq_eq_false_iff_ne.mpr (fun h => hu h.symm)

theorem findActive_applyTombstone_other (T : Table) (r : RemoteItem) (u : String)
    (hu : u ≠ r.uuid) : findActive (applyTombstone T r) u = findActive T u := by
  rw [findActive_eq, findActive_eq]
  exact findActive_uuid_map_step
    (fun x => { x with deleted_at := r.deleted_at, is_synced := true, operation_type := none })
    r.uuid (fun x => rfl) u hu T.rows

theorem findActive_update_other (ent : Entity) (T : Table) (r : RemoteItem) (u : String)
    (hu : u ≠ r.uuid) : findActive (updateLocalFromRemote ent T r) u = findActive T u := by
  rw [findActive_eq, findActive_eq]
  exact findActive_uuid_map_step
    (fun x => { x with fields := mergeFields ent x.fields r.fields,
                       updated_at := remoteTime r, is_synced := true })
    r.uuid (fun x => rfl) u hu T.rows

theorem findActive_insert_other (ent : Entity) (T : Table) (r : RemoteItem) (u : String)
    (hu : u ≠ r.uuid) : findActive (insertRemoteItem ent T r) u = findActive T u := by
  unfold insertRemoteItem
  by_cases hc : insertConflict T r
  · rw [if_pos hc]
  · rw [if_neg hc]
    rw [findActive_eq, findActive_eq]
    apply find_append_none
    intro x hx
    rw [List.mem_singleton] at hx
    subst hx
    have h1 : (r.uuid == u) = false := beq_eq_false_iff_ne.mpr (fun h => hu h.symm)
    show (rowActive _ && (r.uuid == u)) = false
    rw [h1, Bool.and_false]

theorem rowByUuid_applyRemoteItem (ent : Entity) (S : List LocalRow) (T : Table)
    (r : RemoteItem) (u : String) (hu : u ≠ r.uuid) :
    rowByUuid (applyRemoteItem ent S T r) u = rowByUuid T u := by
  unfold applyRemoteItem
  split
  · split
    · split
      · exact rowByUuid_applyTombstone T r u hu
      · rfl
    · rfl
  · split
    · exact rowByUuid_insert_other ent T r u hu
    · split
      · exact rowByUuid_update_other ent T r u hu
      · rfl

theorem findActive_applyRemoteItem (ent : Entity) (S : List LocalRow) (T : Table)
    (r : RemoteItem) (u : String) (hu : u ≠ r.uuid) :
    findActive (applyRemoteItem ent S T r) u = findActive T u := by
  unfold applyRemoteItem
  split
  · split
    · split
      · exact findActive_applyTombstone_other T r u hu
      · rfl
    · rfl
  · split
    · exact findActive_insert_other ent T r u hu
    · split
      · exact findActive_update_other ent T r u hu
      · rfl

theorem insertConflict_map_step (f : LocalRow → LocalRow) (v : String)
    (hf : ∀ x, (f x).uuid = x.uuid ∧ (f x).supabase_id = x.supabase_id)
    (rows : List LocalRow) (n n' : Nat) (rr : RemoteItem) :
    insertConflict { rows := rows.map (fun x => if x.uuid = v then f x else x), nextId := n } rr =
      insertConflict { rows := rows, nextId := n' } rr := by
  unfold insertConflict
  apply any_map_congr
  intro x
  by_cases hx : x.uuid = v
  · rw [if_pos hx, (hf x).1, (hf x).2]
  · rw [if_neg hx]

theorem insertConflict_applyRemoteItem (ent : Entity) (S : List LocalRow) (T : Table)
    (r rr : RemoteItem) (h : insertConflict T rr = true) :
    insertConflict (applyRemoteItem ent S T r) rr = true := by
  unfold applyRemoteItem
  split
  · split
    · split
      · rw [show applyTombstone T r =
            { rows := T.rows.map (fun x => if x.uuid = r.uuid then
                { x with deleted_at := r.deleted_at, is_synced := true,
                         operation_type := none } else x), nextId := T.nextId } from rfl]
        rw [insertConflict_map_step
          (fun x => { x with deleted_at := r.deleted_at, is_synced := true,
                             operation_type := none })
          r.uuid (fun x => ⟨rfl, rfl⟩) T.rows T.nextId T.nextId rr]
        exact h
      · exact h
    · exact h
  · split
    · unfold insertRemoteItem
      by_cases hc : insertConflict T r
      · rw [if_pos hc]; exact h
      · rw [if_neg hc]
        unfold insertConflict at h ⊢
        rw [List.any_append, h, Bool.true_or]
    · split
      · rw [show updateLocalFromRemote ent T r =
            { rows := T.rows.map (fun x => if x.uuid = r.uuid then
                { x with fields := mergeFields ent x.fields r.fields,
                         updated_at := remoteTime r, is_synced := true } else x),
              nextId := T.nextId } from rfl]
        rw [insertConflict_map_step
          (fun x => { x with fields := mergeFields ent x.fields r.fields,
                             updated_at := remoteTime r, is_synced := true })
          r.uuid (fun x => ⟨rfl, rfl⟩) T.rows T.nextId T.nextId rr]
        exact h
      · exact h

/-! ### Stability of a table under re-application of a remote record -/

theorem applyRemoteItem_of_stable (ent : Entity) (T : Table) (r : RemoteItem)
    (h : stableFor T r) : applyRemoteItem ent (activeRows T) T r = T := by
  unfold stableFor at h
  unfold applyRemoteItem
  split
  · rename_i ht
    rw [if_pos ht] at h
    split
    · rename_i l hf
      rw [show (activeRows T).find? (fun l => l.uuid == r.uuid) = findActive T r.uuid
          from rfl] at hf
      rw [h] at hf
      cases hf
    · rfl
  · rename_i ht
    rw [if_neg ht] at h
    split
    · rename_i hf
      rw [show (activeRows T).find? (fun l => l.uuid == r.uuid) = findActive T r.uuid
          from rfl] at hf
      unfold insertRemoteItem
      rw [if_pos (h.1 hf)]
    · rename_i l hf
      rw [show (activeRows T).find? (fun l => l.uuid == r.uuid) = findActive T r.uuid
          from rfl] at hf
      rw [if_neg (h.2 l hf)]

theorem findActive_insert_self (ent : Entity) (T : Table) (r : RemoteItem)
    (hc : insertConflict T r = false) (hpre : findActive T r.uuid = none) :
    findActive (insertRemoteItem ent T r) r.uuid =
      some { id := T.nextId, uuid := r.uuid, fields := insertFields ent r.fields,
             supabase_id := some r.id, is_synced := true, operation_type := none,
             created_at := r.created_at, updated_at := remoteTime r, deleted_at := none } := by
  unfold insertRemoteItem
  rw [if_neg (by simp [hc])]
  rw [findActive_eq]
  show (T.rows ++ [_]).find? _ = _
  rw [find_append_left_none _ _ _ (by rw [← findActive_eq]; exact hpre)]
  simp [rowActive, truthyStr]

theorem stable_after_apply (ent : Entity) (S : List LocalRow) (T : Table) (r : RemoteItem)
    (hagree : findActive T r.uuid = S.find? (fun l => l.uuid == r.uuid))
    (hact : ∀ l, S.find? (fun l => l.uuid == r.uuid) = some l → rowActive l = true) :
    stableFor (applyRemoteItem ent S T r) r := by
  unfold applyRemoteItem
  split
  · rename_i ht
    split
    · rename_i l hf
      split
      · rename_i hla
        unfold stableFor
        rw [if_pos ht]
        rw [findActive_eq]
        apply find_map_none
        intro x
        by_cases hx : x.uuid = r.uuid
        · rw [if_pos hx]
          unfold remoteTombstoned at ht
          simp [rowActive, ht]
        · rw [if_neg hx]
          have hxx : (x.uuid == r.uuid) = false := beq_eq_false_iff_ne.mpr hx
          rw [hxx, Bool.and_false]
      · rename_i hla
        exact absurd (hact l hf) hla
    · rename_i hf
      unfold stableFor
      rw [if_pos ht]
      rw [hagree, hf]
  · rename_i ht
    split
    · rename_i hf
      unfold stableFor
      rw [if_neg ht]
      by_cases hc : insertConflict T r
      · unfold insertRemoteItem
        rw [if_pos hc]
        refine ⟨fun _ => hc, ?_⟩
        intro l hl
        rw [hagree, hf] at hl
        cases hl
      · have hc2 : insertConflict T r = false := by simpa using hc
        have hins := findActive_insert_self ent T r hc2 (by rw [hagree, hf])
        constructor
        · intro hnone
          rw [hins] at hnone
          cases hnone
        · intro l hl
          rw [hins] at hl
          have hl2 := Option.some.inj hl
          subst hl2
          intro hcon
          exact absurd hcon.1 (lt_irrefl _)
    · rename_i l hf
      have hlu : l.uuid = r.uuid := by
        have hps := List.find?_some hf
        simpa using hps
      split
      · rename_i hcond
        unfold stableFor
        rw [if_neg ht]
        have hstep : findActive (updateLocalFromRemote ent T r) r.uuid =
            (findActive T r.uuid).map
              (fun x =>
                if x.uuid = r.uuid then
                  { x with fields := mergeFields ent x.fields r.fields,
                           updated_at := remoteTime r, is_synced := true }
                else x) := by
          rw [findActive_eq, findActive_eq]
          apply find_map_pres
          intro x
          by_cases hx : x.uuid = r.uuid
          · rw [if_pos hx]
            rfl
          · rw [if_neg hx]
        constructor
        · intro hnone
          rw [hstep, hagree, hf] at hnone
          simp at hnone
        · intro l2 hl2
          rw [hstep, hagree, hf] at hl2
          simp only [Option.map_some'] at hl2
          rw [if_pos hlu] at hl2
          have hl3 := Option.some.inj hl2
          subst hl3
          intro hcon
          exact absurd hcon.1 (lt_irrefl _)
      · rename_i hcond
        unfold stableFor
        rw [if_neg ht]
        constructor
        · intro hnone
          rw [hagree, hf] at hnone
          cases hnone
        · intro l2 hl2
          rw [hagree, hf] at hl2
          have hl3 := Option.some.inj hl2
          subst hl3
          exact hcond

theorem stable_preserved (ent : Entity) (S : List LocalRow) (T : Table)
    (r r' : RemoteItem) (hne : r.uuid ≠ r'.uuid) (h : stableFor T r) :
    stableFor (applyRemoteItem ent S T r') r := by
  unfold stableFor at h ⊢
  have hfa : findActive (applyRemoteItem ent S T r') r.uuid = findActive T r.uuid :=
    findActive_applyRemoteItem ent S T r' r.uuid hne
  rw [hfa]
  by_cases htr : remoteTombstoned r = true
  · rw [if_pos htr] at h ⊢
    exact h
  · rw [if_neg htr] at h ⊢
    exact ⟨fun hn => insertConflict_applyRemoteItem ent S T r' r (h.1 hn), h.2⟩

theorem fold_preserves_stable (ent : Entity) (S : List LocalRow) (r : RemoteItem) :
    ∀ (L : List RemoteItem) (T : Table), (∀ r' ∈ L, r.uuid ≠ r'.uuid) → stableFor T r →
    stableFor (L.foldl (applyRemoteItem ent S) T) r := by
  intro L
  induction L with
  | nil => intro T _ h; exact h
  | cons a t ih =>
      intro T hne h
      rw [List.foldl_cons]
      exact ih _ (fun r' h' => hne r' (List.mem_cons_of_mem _ h'))
        (stable_preserved ent S T r a (hne a (by simp)) h)

theorem fold_stable (ent : Entity) (S : List LocalRow) :
    ∀ (R : List RemoteItem) (T : Table),
    (∀ r ∈ R, ∀ l, S.find? (fun x => x.uuid == r.uuid) = some l → rowActive l = true) →
    (∀ r ∈ R, findActive T r.uuid = S.find? (fun x => x.uuid == r.uuid)) →
    R.Pairwise (fun a b => a.uuid ≠ b.uuid) →
    ∀ r ∈ R, stableFor (R.foldl (applyRemoteItem ent S) T) r := by
  intro R
  induction R with
  | nil => intro T _ _ _ r hr; cases hr
  | cons a t ih =>
      intro T hact hagree hpw r hr
      rw [List.foldl_cons]
      obtain ⟨hane, hpw'⟩ := List.pairwise_cons.mp hpw
      rcases List.mem_cons.mp hr with rfl | hrt
      · have h0 : stableFor (applyRemoteItem ent S T r) r :=
          stable_after_apply ent S T r (hagree r (by simp)) (hact r (by simp))
        exact fold_preserves_stable ent S r t _ hane h0
      · apply ih (applyRemoteItem ent S T a)
          (fun r' h' l => hact r' (List.mem_cons_of_mem _ h') l)
          ?_ hpw' r hrt
        intro r' hr'
        rw [findActive_applyRemoteItem ent S T a r'.uuid
          (fun hEq => (hane r' hr') hEq.symm)]
        exact hagree r' (List.mem_cons_of_mem _ hr')

theorem getTable_setTable (tb : Tables) (ent : Entity) (T : Table) :
    getTable (setTable tb ent T) ent = T := by
  cases ent <;> rfl

theorem setTable_setTable (tb : Tables) (ent : Entity) (T1 T2 : Table) :
    setTable (setTable tb ent T1) ent T2 = setTable tb ent T2 := by
  cases ent <;> rfl

/-- C9: running `fetchEntityChanges` a second time against the same remote
record list, immediately after a completed run, is a no-op on the
`SyncManager` state: every local row is unchanged and the sync queue
(which pull never touches) gains no entry.  The remote list carries
pairwise-distinct uuids, as the data model's unique merge key guarantees. -/
theorem pullEntity_idempotent (ent : Entity) (remoteItems : List RemoteItem)
    (st : SyncState) (h : remoteItems.Pairwise (fun a b => a.uuid ≠ b.uuid)) :
    pullEntityState ent remoteItems (pullEntityState ent remoteItems st) =
      pullEntityState ent remoteItems st := by
  have key : ∀ T : Table,
      fetchEntityChanges ent (fetchEntityChanges ent T remoteItems) remoteItems =
        fetchEntityChanges ent T remoteItems := by
    intro T
    have hstab : ∀ r ∈ remoteItems,
        stableFor (fetchEntityChanges ent T remoteItems) r := by
      intro r hr
      unfold fetchEntityChanges
      apply fold_stable ent (activeRows T) remoteItems T ?_ ?_ h r hr
      · intro r' _ l hl
        have hmem := List.mem_of_find?_eq_some hl
        exact (List.mem_filter.mp hmem).2
      · intro r' _
        rfl
    unfold fetchEntityChanges
    apply foldl_fixed
    intro r hr
    exact applyRemoteItem_of_stable ent _ r (by
      have := hstab r hr
      unfold fetchEntityChanges at this
      exact this)
  unfold pullEntityState
  rw [getTable_setTable, key, setTable_setTable]

theorem pullEntity_idempotent_witness :
    List.Pairwise (fun a b => a.uuid ≠ b.uuid) [remA, remB] ∧
    pullEntityState Entity.levels [remA, remB]
        (pullEntityState Entity.levels [remA, remB] stIdle) =
      pullEntityState Entity.levels [remA, remB] stIdle :=
  ⟨by decide, pullEntity_idempotent Entity.levels [remA, remB] stIdle (by decide)⟩

/-! ### Tracking a single row through a pull run -/

theorem find_combined_of_find (u : String) :
    ∀ (l : List LocalRow) (x : LocalRow),
    l.Pairwise (fun a b => a.uuid ≠ b.uuid) →
    l.find? (fun a => a.uuid == u) = some x →
    l.find? (fun a => rowActive a && (a.uuid == u)) =
      (if rowActive x = true then some x else none) := by
  intro l
  induction l with
  | nil => intro x _ hx; cases hx
  | cons a t ih =>
      intro x hnd hx
      obtain ⟨hane, hnd2⟩ := List.pairwise_cons.mp hnd
      by_cases hau : a.uuid = u
      · have hxa : x = a := by
          have hcons : (a :: t).find? (fun a2 => a2.uuid == u) = some a :=
            find_cons_pos t (by simpa using hau)
          rw [hcons] at hx
          exact (Option.some.inj hx).symm
        subst hxa
        cases hact : rowActive x
        · rw [if_neg (by simp [hact])]
          have hcons : (x :: t).find? (fun a2 => rowActive a2 && (a2.uuid == u)) =
              t.find? (fun a2 => rowActive a2 && (a2.uuid == u)) :=
            find_cons_neg t (by rw [hact]; exact Bool.false_and _)
          rw [hcons, List.find?_eq_none]
          intro b hb
          have hbu : b.uuid ≠ u := by
            intro hbu
            exact (hane b hb) (by rw [hau, hbu])
          simp [hbu]
        · rw [if_pos rfl]
          exact find_cons_pos t
            (by rw [hact, show (x.uuid == u) = true from by simpa using hau]; rfl)
      · have hx2 : t.find? (fun a2 => a2.uuid == u) = some x := by
          have hcons : (a :: t).find? (fun a2 => a2.uuid == u) =
              t.find? (fun a2 => a2.uuid == u) :=
            find_cons_neg t (beq_eq_false_iff_ne.mpr hau)
          rw [← hcons]
          exact hx
        have hcons2 : (a :: t).find? (fun a2 => rowActive a2 && (a2.uuid == u)) =
            t.find? (fun a2 => rowActive a2 && (a2.uuid == u)) :=
          find_cons_neg t
            (by rw [show (a.uuid == u) = false from beq_eq_false_iff_ne.mpr hau]
                exact Bool.and_false _)
        rw [hcons2]
        exact ih x hnd2 hx2

theorem rowByUuid_map_match (f : LocalRow → LocalRow) (v : String)
    (hf : ∀ z, (f z).uuid = z.uuid) (T : Table) (u : String) (y : LocalRow)
    (hy : rowByUuid T u = some y) :
    rowByUuid { rows := T.rows.map (fun z => if z.uuid = v then f z else z),
                nextId := T.nextId } u =
      some (if y.uuid = v then f y else y) := by
  unfold rowByUuid at hy ⊢
  rw [find_map_pres _ _ _ ?hp]
  · rw [hy]
    rfl
  case hp =>
    intro z
    by_cases hz : z.uuid = v
    · rw [if_pos hz, hf z]
    · rw [if_neg hz]

theorem track_row (ent : Entity) (S : List LocalRow) (u : String) (x : LocalRow)
    (hS : S.find? (fun l => l.uuid == u) = (if rowActive x = true then some x else none)) :
    ∀ (R : List RemoteItem) (T : Table) (y : LocalRow),
    rowByUuid T u = some y →
    ∃ y', rowByUuid (R.foldl (applyRemoteItem ent S) T) u = some y' ∧
      ((y'.fields = y.fields ∧ y'.updated_at = y.updated_at) ∨
       (x.is_synced = true ∧ ∃ r ∈ R, r.uuid = u ∧ remoteTombstoned r = false ∧
          x.updated_at < remoteTime r)) := by
  intro R
  induction R with
  | nil =>
      intro T y hy
      exact ⟨y, hy, Or.inl ⟨rfl, rfl⟩⟩
  | cons a t ih =>
      intro T y hy
      rw [List.foldl_cons]
      by_cases hau : a.uuid = u
      · cases hact : rowActive x
        · have hfind : S.find? (fun l => l.uuid == a.uuid) = none := by
            rw [hau, hS, if_neg (by simp [hact])]
          have hstep : applyRemoteItem ent S T a = T := by
            unfold applyRemoteItem
            rw [hfind]
            have hyu : y.uuid = u := by simpa using List.find?_some hy
            have hconf : insertConflict T a = true := by
              unfold insertConflict
              rw [List.any_eq_true]
              exact ⟨y, List.mem_of_find?_eq_some hy, by simp [hyu, hau]⟩
            by_cases htmb : remoteTombstoned a = true
            · rw [if_pos htmb]
            · rw [if_neg htmb]
              show insertRemoteItem ent T a = T
              unfold insertRemoteItem
              rw [if_pos hconf]
          rw [hstep]
          obtain ⟨y', h1, h2⟩ := ih T y hy
          refine ⟨y', h1, ?_⟩
          rcases h2 with h2 | ⟨hs, r, hr, hprops⟩
          · exact Or.inl h2
          · exact Or.inr ⟨hs, r, List.mem_cons_of_mem _ hr, hprops⟩
        · have hfind : S.find? (fun l => l.uuid == a.uuid) = some x := by
            rw [hau, hS, if_pos hact]
          by_cases htmb : remoteTombstoned a = true
          · have hstep : applyRemoteItem ent S T a = applyTombstone T a := by
              unfold applyRemoteItem
              rw [if_pos htmb, hfind]
              show (if rowActive x = true then applyTombstone T a else T) =
                applyTombstone T a
              rw [if_pos hact]
            rw [hstep]
            have hy2 := rowByUuid_map_match
              (fun z => { z with deleted_at := a.deleted_at, is_synced := true,
                                 operation_type := none })
              a.uuid (fun z => rfl) T u y hy
            obtain ⟨y', h1, h2⟩ := ih _ _ hy2
            refine ⟨y', h1, ?_⟩
            rcases h2 with ⟨hfld, hupd⟩ | ⟨hs, r, hr, hprops⟩
            · refine Or.inl ⟨?_, ?_⟩
              · rw [hfld]
                by_cases hz : y.uuid = a.uuid
                · rw [if_pos hz]
                · rw [if_neg hz]
              · rw [hupd]
                by_cases hz : y.uuid = a.uuid
                · rw [if_pos hz]
                · rw [if_neg hz]
            · exact Or.inr ⟨hs, r, List.mem_cons_of_mem _ hr, hprops⟩
          · by_cases hcond : x.updated_at < remoteTime a ∧ x.is_synced = true
            · have hstep : applyRemoteItem ent S T a = updateLocalFromRemote ent T a := by
                unfold applyRemoteItem
                rw [if_neg htmb, hfind]
                show (if x.updated_at < remoteTime a ∧ x.is_synced = true then
                    updateLocalFromRemote ent T a else T) = updateLocalFromRemote ent T a
                rw [if_pos hcond]
              rw [hstep]
              have hy2 := rowByUuid_map_match
                (fun z => { z with fields := mergeFields ent z.fields a.fields,
                                   updated_at := remoteTime a, is_synced := true })
                a.uuid (fun z => rfl) T u y hy
              obtain ⟨y', h1, h2⟩ := ih _ _ hy2
              refine ⟨y', h1, Or.inr ⟨hcond.2, a, by simp, hau, ?_, hcond.1⟩⟩
              simpa using htmb
            · have hstep : applyRemoteItem ent S T a = T := by
                unfold applyRemoteItem
                rw [if_neg htmb, hfind]
                show (if x.updated_at < remoteTime a ∧ x.is_synced = true then
                    updateLocalFromRemote ent T a else T) = T
                rw [if_neg hcond]
              rw [hstep]
              obtain ⟨y', h1, h2⟩ := ih T y hy
              refine ⟨y', h1, ?_⟩
              rcases h2 with h2 | ⟨hs, r, hr, hprops⟩
              · exact Or.inl h2
              · exact Or.inr ⟨hs, r, List.mem_cons_of_mem _ hr, hprops⟩
      · have hrow : rowByUuid (applyRemoteItem ent S T a) u = some y := by
          rw [rowByUuid_applyRemoteItem ent S T a u (fun hEq => hau hEq.symm)]
          exact hy
        obtain ⟨y', h1, h2⟩ := ih _ y hrow
        refine ⟨y', h1, ?_⟩
        rcases h2 with h2 | ⟨hs, r, hr, hprops⟩
        · exact Or.inl h2
        · exact Or.inr ⟨hs, r, List.mem_cons_of_mem _ hr, hprops⟩

/-- C1: the conflict guard of the Pull Reconciler.  For a local record with
a given uuid (uuid is UNIQUE in the schema), `fetchEntityChanges` applies a
remote version over its business fields / `updated_at` only if some remote
record with that uuid, not carrying a tombstone, has
`remote.updated_at > local.updated_at` while the local record has
`is_synced = true`; in particular a record with `is_synced = false` (an
unsynced local edit) never has its business fields or `updated_at`
overwritten, whatever the remote timestamps. -/
theorem pull_conflict_guard (ent : Entity) (T : Table) (remoteItems : List RemoteItem)
    (u : String) (x x' : LocalRow)
    (hnd : T.rows.Pairwise (fun a b => a.uuid ≠ b.uuid))
    (hx : rowByUuid T u = some x)
    (hx' : rowByUuid (fetchEntityChanges ent T remoteItems) u = some x') :
    (x.is_synced = false → x'.fields = x.fields ∧ x'.updated_at = x.updated_at) ∧
    ((x'.fields ≠ x.fields ∨ x'.updated_at ≠ x.updated_at) →
      x.is_synced = true ∧ ∃ r ∈ remoteItems, r.uuid = u ∧ remoteTombstoned r = false ∧
        x.updated_at < remoteTime r) := by
  have hS : (activeRows T).find? (fun l => l.uuid == u) =
      (if rowActive x = true then some x else none) := by
    unfold activeRows
    rw [find_filter]
    exact find_combined_of_find u T.rows x hnd hx
  obtain ⟨y', h1, h2⟩ := track_row ent (activeRows T) u x hS remoteItems T x hx
  have hxy : y' = x' := by
    unfold fetchEntityChanges at hx'
    rw [h1] at hx'
    exact Option.some.inj hx'
  subst hxy
  constructor
  · intro hsync
    rcases h2 with h2 | ⟨hs, _⟩
    · exact h2
    · rw [hsync] at hs
      cases hs
  · intro hch
    rcases h2 with ⟨hf2, hu2⟩ | h2
    · rcases hch with hch | hch
      · exact absurd hf2 hch
      · exact absurd hu2 hch
    · exact h2

theorem pull_conflict_guard_witness :
    cgTable2.rows.Pairwise (fun a b => a.uuid ≠ b.uuid) ∧
    (cgRow2Out.fields ≠ cgRow2.fields ∨ cgRow2Out.updated_at ≠ cgRow2.updated_at) ∧
    (cgRow2.is_synced = true ∧ ∃ r ∈ [remNew], r.uuid = "u1" ∧ remoteTombstoned r = false ∧
      cgRow2.updated_at < remoteTime r) :=
  ⟨by decide, by decide,
   (pull_conflict_guard Entity.levels cgTable2 [remNew] "u1" cgRow2 cgRow2Out
      (by decide) (by decide) (by decide)).2 (by decide)⟩

theorem pull_keeps_row (ent : Entity) (S : List LocalRow) (u : String) (x : LocalRow)
    (hS : S.find? (fun l => l.uuid == u) = (if rowActive x = true then some x else none))
    (hsync : x.is_synced = false) :
    ∀ (R : List RemoteItem) (T : Table),
    rowByUuid T u = some x →
    ((∀ r ∈ R, r.uuid = u → remoteTombstoned r = false) ∨ rowActive x = false) →
    rowByUuid (R.foldl (applyRemoteItem ent S) T) u = some x := by
  intro R
  induction R with
  | nil => intro T hx _; exact hx
  | cons a t ih =>
      intro T hx hsafe
      rw [List.foldl_cons]
      have hsafe2 : (∀ r ∈ t, r.uuid = u → remoteTombstoned r = false) ∨
          rowActive x = false := by
        rcases hsafe with hsafe | hsafe
        · exact Or.inl (fun r hr => hsafe r (List.mem_cons_of_mem _ hr))
        · exact Or.inr hsafe
      by_cases hau : a.uuid = u
      · cases hact : rowActive x
        · have hfind : S.find? (fun l => l.uuid == a.uuid) = none := by
            rw [hau, hS, if_neg (by simp [hact])]
          have hstep : applyRemoteItem ent S T a = T := by
            unfold applyRemoteItem
            rw [hfind]
            have hxu : x.uuid = u := by simpa using List.find?_some hx
            have hconf : insertConflict T a = true := by
              unfold insertConflict
              rw [List.any_eq_true]
              exact ⟨x, List.mem_of_find?_eq_some hx, by simp [hxu, hau]⟩
            by_cases htmb : remoteTombstoned a = true
            · rw [if_pos htmb]
            · rw [if_neg htmb]
              show insertRemoteItem ent T a = T
              unfold insertRemoteItem
              rw [if_pos hconf]
          rw [hstep]
          exact ih T hx hsafe2
        · have hnotomb : remoteTombstoned a = false := by
            rcases hsafe with hsafe | hsafe
            · exact hsafe a (by simp) hau
            · rw [hsafe] at hact
              cases hact
          have hfind : S.find? (fun l => l.uuid == a.uuid) = some x := by
            rw [hau, hS, if_pos hact]
          have hstep : applyRemoteItem ent S T a = T := by
            unfold applyRemoteItem
            rw [if_neg (by simp [hnotomb]), hfind]
            show (if x.updated_at < remoteTime a ∧ x.is_synced = true then
                updateLocalFromRemote ent T a else T) = T
            rw [if_neg (by
              intro hcon
              rw [hsync] at hcon
              exact Bool.false_ne_true hcon.2)]
          rw [hstep]
          exact ih T hx hsafe2
      · have hrow : rowByUuid (applyRemoteItem ent S T a) u = some x := by
          rw [rowByUuid_applyRemoteItem ent S T a u (fun hEq => hau hEq.symm)]
          exact hx
        exact ih _ hrow hsafe2

/-- C8 counterexample: a local record with a pending unpushed INSERT
(`operation_type = 'INSERT'`, `is_synced = 0`, not tombstoned) is modified
by `fetchEntityChanges` when the remote list carries a tombstoned record
with the same uuid: the tombstone branch runs regardless of
`pending_operation`, stamping `deleted_at`, setting `is_synced = 1` and
clearing `operation_type`. -/
theorem pull_pending_counterexample :
    pendRow.operation_type = some Op.INSERT ∧ pendRow.is_synced = false ∧
    pendRow.deleted_at = none ∧
    (fetchEntityChanges Entity.levels pendTable [tombRem]).rows ≠ pendTable.rows := by
  refine ⟨rfl, rfl, rfl, by decide⟩

/-- C8 amended: a local record with a pending unpushed INSERT or DELETE
(`is_synced = 0`) is left entirely unchanged by `fetchEntityChanges`, and
no queue entry is created (pull never touches `sync_queue`), provided
either no remote record with its uuid carries a tombstone, or the record is
itself already tombstoned (the DELETE-pending case, unconditionally).  The
sole exception forced by the code is the one of the counterexample: a
remote tombstone is applied over a non-tombstoned pending record. -/
theorem pull_pending_preserved_amended (ent : Entity) (remoteItems : List RemoteItem)
    (st : SyncState) (u : String) (x : LocalRow)
    (hnd : (getTable st.tables ent).rows.Pairwise (fun a b => a.uuid ≠ b.uuid))
    (hx : rowByUuid (getTable st.tables ent) u = some x)
    (hpend : x.operation_type = some Op.INSERT ∨ x.operation_type = some Op.DELETE)
    (hsync : x.is_synced = false)
    (hsafe : (∀ r ∈ remoteItems, r.uuid = u → remoteTombstoned r = false) ∨
      rowActive x = false) :
    rowByUuid (getTable (pullEntityState ent remoteItems st).tables ent) u = some x ∧
    (pullEntityState ent remoteItems st).queue = st.queue := by
  constructor
  · show rowByUuid (getTable (setTable st.tables ent
        (fetchEntityChanges ent (getTable st.tables ent) remoteItems)) ent) u = some x
    rw [getTable_setTable]
    have hS : (activeRows (getTable st.tables ent)).find? (fun l => l.uuid == u) =
        (if rowActive x = true then some x else none) := by
      unfold activeRows
      rw [find_filter]
      exact find_combined_of_find u _ x hnd hx
    exact pull_keeps_row ent _ u x hS hsync remoteItems _ hx hsafe
  · rfl

theorem pull_pending_preserved_amended_witness :
    pendRow.is_synced = false ∧
    rowByUuid (getTable (pullEntityState Entity.levels [remSameU2] stPend).tables
        Entity.levels) "u2" = some pendRow :=
  ⟨rfl,
   (pull_pending_preserved_amended Entity.levels [remSameU2] stPend "u2" pendRow
      (by decide) (by decide) (Or.inl rfl) rfl (Or.inl (by decide))).1⟩
